import Mathlib

/-!
Verification of the core request-handling engine of a multi-transport
JSON-RPC stub server (responder chain, expectation ledger, block store,
core orchestration, transport variants).

The repository ships a declarations-only surface (`source/index.d.ts`);
the behavioural definitions below are a shallow embedding of that surface:
wherever the `.d.ts` doc comments pin the behaviour down (responder
ordering, the `undefined` no-match convention, fallback preservation on
`clearResponders`, mining pending transactions) the embedding follows
them, and the remaining behaviour is modelled from the design document.
-/

/-- A JavaScript value as seen by the stub server: responders return
either `undefined` (the no-match convention of `addResponder`), `null`,
a primitive, or an `Error` carrying a JSON-RPC error code and message. -/
inductive JsValue where
  | undef : JsValue
  | vnull : JsValue
  | bool : Bool → JsValue
  | num : Int → JsValue
  | str : String → JsValue
  | err : Int → String → JsValue
deriving DecidableEq

/-- A parsed JSON-RPC request, per `declare interface JsonRpcRequest`. -/
structure JsonRpcRequest where
  jsonrpc : String
  id : Int
  method : String
  params : List JsValue
deriving DecidableEq

/-- A response generator registered with `addResponder`: takes a JSON-RPC
request and returns either an Error, a result value, or `undefined`
meaning "this responder does not apply". -/
abbrev Responder := JsonRpcRequest → JsValue

/-- `addResponder` registers a generator; the chain is kept with the most
recently added generator first, matching the `.d.ts` doc comment
"Responders are processed in reverse order they are added". -/
def addResponder (g : Responder) (chain : List Responder) : List Responder :=
  g :: chain

/-- The chain obtained from a sequence of `addResponder` calls (in call
order) starting from the empty chain. -/
def chainOf (gs : List Responder) : List Responder :=
  gs.foldl (fun c g => addResponder g c) []

/-- `resolve` walks the chain most-recently-added-first; per the `.d.ts`
doc comment, a generator returning `undefined` is skipped and "the first
responder to return something other than `undefined` is used and the
remaining responders will be skipped".  `none` means no generator matched
(the "unhandled" outcome). -/
def resolve : List Responder → JsonRpcRequest → Option JsValue
  | [], _ => none
  | g :: rest, r =>
      if g r = JsValue.undef then resolve rest r else some (g r)

lemma resolve_first_of_match (cs : List Responder) (r : JsonRpcRequest) :
    ∀ j : Fin cs.length, (cs.get j) r ≠ JsValue.undef →
      (∀ i : Fin cs.length, i.val < j.val → (cs.get i) r = JsValue.undef) →
      resolve cs r = some ((cs.get j) r) := by
  induction cs with
  | nil => exact fun j => absurd j.isLt (by simp)
  | cons g rest ih =>
      intro j hj hearl
      match j with
      | ⟨0, h0⟩ =>
          simp only [List.get] at hj
          simp only [resolve, if_neg hj, List.get]
      | ⟨i + 1, hi⟩ =>
          have h0 : g r = JsValue.undef := hearl ⟨0, by simp⟩ (Nat.succ_pos i)
          simp only [resolve, if_pos h0, List.get]
          exact ih ⟨i, Nat.lt_of_succ_lt_succ hi⟩ hj
            (fun i' hi' => hearl ⟨i'.val + 1, Nat.succ_lt_succ i'.isLt⟩
              (Nat.succ_lt_succ hi'))

lemma resolve_none_of_all_undef (cs : List Responder) (r : JsonRpcRequest)
    (h : ∀ i : Fin cs.length, (cs.get i) r = JsValue.undef) :
    resolve cs r = none := by
  induction cs with
  | nil => rfl
  | cons g rest ih =>
      have h0 : g r = JsValue.undef := h ⟨0, by simp⟩
      simp only [resolve, if_pos h0]
      exact ih (fun i => h ⟨i.val + 1, Nat.succ_lt_succ i.isLt⟩)

/-- C1: for every sequence of `addResponder` calls and every request,
`resolve` returns the result of the most recently added responder whose
generator does not return the no-match sentinel for that request (all
more recently added responders having returned the sentinel), and returns
the unhandled outcome when every generator returns the sentinel. -/
theorem resolve_selects_most_recent (gs : List Responder) (r : JsonRpcRequest) :
    (∀ j : Fin (chainOf gs).length, ((chainOf gs).get j) r ≠ JsValue.undef →
      (∀ i : Fin (chainOf gs).length, i.val < j.val →
        ((chainOf gs).get i) r = JsValue.undef) →
      resolve (chainOf gs) r = some (((chainOf gs).get j) r)) ∧
    ((∀ i : Fin (chainOf gs).length, ((chainOf gs).get i) r = JsValue.undef) →
      resolve (chainOf gs) r = none) := by
  exact ⟨fun j hj hearl => resolve_first_of_match (chainOf gs) r j hj hearl,
    fun h => resolve_none_of_all_undef (chainOf gs) r h⟩

/-- A sample request used to instantiate the theorems on concrete data. -/
def req0 : JsonRpcRequest :=
  { jsonrpc := "2.0", id := 1, method := "eth_getBalance", params := [] }

/-- A pair of responders: the first added always answers, the second
added (hence consulted first) declines every request. -/
def gs0 : List Responder :=
  [fun _ => JsValue.str "old", fun _ => JsValue.undef]

/-- Witness for C1: with `gs0`, the most recently added responder declines
`req0`, so `resolve` falls through to the earlier one and returns its
answer. -/
theorem resolve_selects_most_recent_witness :
    resolve (chainOf gs0) req0 = some (JsValue.str "old") :=
  (resolve_selects_most_recent gs0 req0).1 ⟨1, by decide⟩ (by decide) (by decide)

/-- Counterexample to C2 as stated: a responder that answers `undefined`
is treated as "no match" — the chain falls through to the next responder
instead of returning that `undefined` answer, so `undefined` is not
distinguishable from the no-match sentinel. -/
theorem undef_answer_is_no_match :
    resolve (addResponder (fun _ => JsValue.undef)
      (addResponder (fun _ => JsValue.str "answer") [])) req0
      = some (JsValue.str "answer") := by
  decide

/-- C2 (amended): per the `.d.ts` doc comment the no-match sentinel is
`undefined` itself: a responder declines by returning `undefined`, and a
responder returning `undefined` can never supply the answer; `null`
remains a legitimate response value distinguishable from the sentinel. -/
theorem sentinel_is_undefined (c : List Responder) (r : JsonRpcRequest) :
    resolve (addResponder (fun _ => JsValue.vnull) c) r = some JsValue.vnull ∧
    resolve (addResponder (fun _ => JsValue.undef) c) r = resolve c r ∧
    JsValue.vnull ≠ JsValue.undef := by
  refine ⟨?_, ?_, by decide⟩
  · simp [resolve, addResponder]
  · simp [resolve, addResponder]

/-- An expectation registered on the ledger: a matcher predicate, the
required number of matching requests, the count observed so far, and a
numeric tag identifying it in diagnostics.

Modelled from the spec: the `.d.ts` only declares `addExpectation` /
`addExpectations` / `assertExpectations`; the ledger record and its
fields follow the design document's Expectation data model. -/
structure Expectation where
  matcher : JsonRpcRequest → Bool
  requiredCount : Nat
  observedCount : Nat
  tag : Nat

/-- `addExpectation(matcher)` registers a single-occurrence expectation
(requiredCount = 1, nothing observed yet), tagged with its position.

Modelled from the spec: the registration behaviour behind the declared
`addExpectation` signature. -/
def addExpectation (m : JsonRpcRequest → Bool) (L : List Expectation) :
    List Expectation :=
  L ++ [{ matcher := m, requiredCount := 1, observedCount := 0, tag := L.length }]

/-- `observe(request)` increments the observed count of every registered
expectation whose matcher matches the request.

Modelled from the spec: the ledger bookkeeping performed on each handled
request. -/
def observe (r : JsonRpcRequest) (L : List Expectation) : List Expectation :=
  L.map fun e =>
    if e.matcher r then { e with observedCount := e.observedCount + 1 } else e

/-- The mismatch report produced by a failed assertion: each unmet
expectation contributes its tag, its required count and its observed
count. -/
def collectMismatches : List Expectation → List (Nat × Nat × Nat)
  | [] => []
  | e :: rest =>
      if e.observedCount = e.requiredCount then collectMismatches rest
      else (e.tag, e.requiredCount, e.observedCount) :: collectMismatches rest

/-- `assertExpectations()` succeeds when every expectation was observed
exactly its required number of times, and otherwise fails with one
aggregated report naming every mismatched expectation.

Modelled from the spec: the assertion behaviour behind the declared
`assertExpectations` signature. -/
def assertExpectations (L : List Expectation) :
    Except (List (Nat × Nat × Nat)) Unit :=
  match collectMismatches L with
  | [] => Except.ok ()
  | ms => Except.error ms

lemma collectMismatches_eq_filter_map (L : List Expectation) :
    collectMismatches L =
      (L.filter fun e => decide (e.observedCount ≠ e.requiredCount)).map
        (fun e => (e.tag, e.requiredCount, e.observedCount)) := by
  induction L with
  | nil => rfl
  | cons e rest ih =>
      by_cases h : e.observedCount = e.requiredCount
      · simp [collectMismatches, if_pos h, List.filter, h, ih]
      · simp [collectMismatches, if_neg h, List.filter, h, ih]

lemma collectMismatches_nil_iff (L : List Expectation) :
    collectMismatches L = [] ↔ ∀ e ∈ L, e.observedCount = e.requiredCount := by
  rw [collectMismatches_eq_filter_map, List.map_eq_nil_iff, List.filter_eq_nil_iff]
  constructor
  · intro h e he
    have := h e he
    simpa using this
  · intro h e he
    simpa using h e he

/-- C3: `assertExpectations` fails exactly when some expectation's
observed count differs from its required count; one matching request for
a single expectation makes it succeed, while zero or two make it fail,
reporting the mismatch (required 1, observed 0) resp. (required 1,
observed 2); all mismatched expectations are aggregated into one report
naming each tag with its required and observed counts. -/
theorem assertExpectations_exact (L : List Expectation)
    (m : JsonRpcRequest → Bool) (r : JsonRpcRequest) (hm : m r = true) :
    (assertExpectations L = Except.ok () ↔
      ∀ e ∈ L, e.observedCount = e.requiredCount) ∧
    assertExpectations (observe r (addExpectation m [])) = Except.ok () ∧
    assertExpectations (addExpectation m []) = Except.error [(0, 1, 0)] ∧
    assertExpectations (observe r (observe r (addExpectation m []))) =
      Except.error [(0, 1, 2)] ∧
    (∀ ms, assertExpectations L = Except.error ms →
      ms = (L.filter fun e => decide (e.observedCount ≠ e.requiredCount)).map
        (fun e => (e.tag, e.requiredCount, e.observedCount))) := by
  refine ⟨?_, ?_, ?_, ?_, ?_⟩
  · constructor
    · intro h
      rw [← collectMismatches_nil_iff]
      by_contra hne
      simp only [assertExpectations] at h
      rcases hcm : collectMismatches L with _ | ⟨p, ps⟩
      · exact hne hcm
      · rw [hcm] at h
        exact Except.noConfusion h
    · intro h
      have : collectMismatches L = [] := (collectMismatches_nil_iff L).mpr h
      simp [assertExpectations, this]
  · simp [assertExpectations, collectMismatches, observe, addExpectation, hm]
  · simp [assertExpectations, collectMismatches, addExpectation]
  · simp [assertExpectations, collectMismatches, observe, addExpectation, hm]
  · intro ms hms
    have h1 : ms = collectMismatches L := by
      simp only [assertExpectations] at hms
      rcases hcm : collectMismatches L with _ | ⟨p, ps⟩ <;> rw [hcm] at hms
      · exact Except.noConfusion hms
      · injection hms with h
        exact h.symm
    rw [h1, collectMismatches_eq_filter_map]

/-- A sample matcher matching exactly requests for `eth_getBalance`. -/
def sampleMatcher : JsonRpcRequest → Bool := fun r => r.method == "eth_getBalance"

/-- Witness for C3: instantiated with the empty ledger, `sampleMatcher`
and `req0`, which `sampleMatcher` matches. -/
theorem assertExpectations_exact_witness :
    (assertExpectations [] = Except.ok () ↔
      ∀ e ∈ ([] : List Expectation), e.observedCount = e.requiredCount) ∧
    assertExpectations (observe req0 (addExpectation sampleMatcher [])) =
      Except.ok () ∧
    assertExpectations (addExpectation sampleMatcher []) =
      Except.error [(0, 1, 0)] ∧
    assertExpectations (observe req0 (observe req0
      (addExpectation sampleMatcher []))) = Except.error [(0, 1, 2)] ∧
    (∀ ms, assertExpectations [] = Except.error ms →
      ms = (([] : List Expectation).filter
        (fun e => decide (e.observedCount ≠ e.requiredCount))).map
        (fun e => (e.tag, e.requiredCount, e.observedCount))) :=
  assertExpectations_exact [] sampleMatcher req0 (by decide)

/-- A submitted-but-unmined transaction record. -/
abbrev Tx := JsValue

/-- A mined block: a monotonically increasing number and the snapshot of
pending transactions captured at mine time, per the `.d.ts` doc comment
"The block will contain any transactions that have been submitted but
not yet mined". -/
structure MinedBlock where
  number : Nat
  transactions : List Tx
deriving DecidableEq

/-- The block store: the append-only list of mined blocks, the pending
transaction queue, and the configured genesis number from which block
numbering starts.

Modelled from the spec: the BlockStore component behind the declared
`mine` operation. -/
structure BlockStore where
  blocks : List MinedBlock
  pending : List Tx
  genesis : Nat
deriving DecidableEq

/-- The number of the last mined block, or the configured genesis value
when nothing has been mined yet. -/
def lastBlockNumber (s : BlockStore) : Nat :=
  match s.blocks.getLast? with
  | some b => b.number
  | none => s.genesis

/-- `recordPendingTransaction(tx)` appends a transaction to the pending
queue in submission order.

Modelled from the spec: the pending-queue side of the BlockStore. -/
def recordPendingTransaction (tx : Tx) (s : BlockStore) : BlockStore :=
  { s with pending := s.pending ++ [tx] }

/-- `mine()` creates a block numbered one past the last block, holding
the snapshot of the pending queue, appends it to the store and clears
the queue. -/
def mine (s : BlockStore) : BlockStore :=
  { blocks := s.blocks ++
      [{ number := lastBlockNumber s + 1, transactions := s.pending }],
    pending := [],
    genesis := s.genesis }

lemma lastBlockNumber_mine (s : BlockStore) :
    lastBlockNumber (mine s) = lastBlockNumber s + 1 := by
  simp [mine, lastBlockNumber, List.getLast?_concat]

/-- C4: for every server state, `mine()` appends exactly one block whose
number is the previous last block number plus one and whose transactions
are exactly the pending queue at mine time, clearing the queue and
touching nothing else; in particular, submitting two transactions and
mining yields a block carrying the prior queue followed by those two
transactions in submission order (so exactly the two when the queue was
empty), and a second `mine` with no new submissions yields an
empty-transaction block numbered one higher again. -/
theorem mine_snapshots_pending (s : BlockStore) (t1 t2 : Tx) :
    (∀ u : BlockStore,
      mine u = { blocks :=
                   u.blocks ++ [{ number := lastBlockNumber u + 1,
                                  transactions := u.pending }],
                 pending := [],
                 genesis := u.genesis }) ∧
    ∃ b1 b2 : MinedBlock,
      mine (recordPendingTransaction t2 (recordPendingTransaction t1 s)) =
        { blocks := s.blocks ++ [b1], pending := [], genesis := s.genesis } ∧
      b1.number = lastBlockNumber s + 1 ∧
      b1.transactions = s.pending ++ [t1, t2] ∧
      mine (mine (recordPendingTransaction t2 (recordPendingTransaction t1 s))) =
        { blocks := s.blocks ++ [b1, b2], pending := [], genesis := s.genesis } ∧
      b2.number = b1.number + 1 ∧
      b2.transactions = [] := by
  refine ⟨fun u => rfl,
    { number := lastBlockNumber s + 1, transactions := s.pending ++ [t1, t2] },
    { number := lastBlockNumber s + 2, transactions := [] },
    ?_, rfl, rfl, ?_, rfl, rfl⟩
  · simp [mine, recordPendingTransaction, lastBlockNumber]
  · simp [mine, recordPendingTransaction, lastBlockNumber,
      List.getLast?_concat]

/-- A JSON-RPC-shaped response: a success object or an error object,
each correlated to the request id. -/
inductive JsonRpcResponse where
  | success : Int → JsValue → JsonRpcResponse
  | error : Int → Int → String → JsonRpcResponse
deriving DecidableEq

/-- The request id a response is correlated to. -/
def responseId : JsonRpcResponse → Int
  | JsonRpcResponse.success i _ => i
  | JsonRpcResponse.error i _ _ => i

/-- The failure raised when the server is used after teardown. -/
inductive ServerFault where
  | useAfterDestroy : ServerFault
deriving DecidableEq

/-- The answer of the standing default-error responder used when no
registered generator claims a request.

Modelled from the spec: the fallback error responder is always present
and never removed by `clearResponders`. -/
def fallbackError : JsValue := JsValue.err (-32601) "Method not found"

/-- The value the responder chain produces for a request: the first
non-sentinel generator result, or the fallback error when the chain
leaves the request unhandled. -/
def chainResult (cs : List Responder) (r : JsonRpcRequest) : JsValue :=
  match resolve cs r with
  | some v => v
  | none => fallbackError

/-- Wraps a chain result as a JSON-RPC response correlated to the given
request id: an Error value becomes an error response, anything else a
success response. -/
def toResponse (id : Int) (v : JsValue) : JsonRpcResponse :=
  match v with
  | JsValue.err code msg => JsonRpcResponse.error id code msg
  | v => JsonRpcResponse.success id v

/-- The transport-agnostic core server state: responder chain,
expectation ledger, block store and the destroyed flag.

Modelled from the spec: the CoreServer component behind `AbstractServer`. -/
structure CoreServer where
  responders : List Responder
  ledger : List Expectation
  store : BlockStore
  destroyed : Bool

/-- `handle(request)`: fails fast when the server has been destroyed;
otherwise records the request on the expectation ledger (always,
regardless of the responder outcome), resolves the responder chain, and
wraps the result as a JSON-RPC response correlated to the request id.

Modelled from the spec: the orchestration behind the declared
`AbstractServer` request handling. -/
def handle (s : CoreServer) (r : JsonRpcRequest) :
    Except ServerFault (CoreServer × JsonRpcResponse) :=
  if s.destroyed then Except.error ServerFault.useAfterDestroy
  else
    Except.ok ({ s with ledger := observe r s.ledger },
      toResponse r.id (chainResult s.responders r))

/-- `destroy()` marks the server inert; subsequent `handle` calls fail
fast, and calling it again is a no-op. -/
def CoreServer.destroy (s : CoreServer) : CoreServer :=
  { s with destroyed := true }

/-- `clearResponders()` empties the registered responder chain; the
fallback error responder lives outside the chain and is untouched, per
the `.d.ts` doc comment "Clears all setup responders *except* the
fallback error responder". -/
def clearResponders (s : CoreServer) : CoreServer :=
  { s with responders := [] }

lemma observe_observedCount (r : JsonRpcRequest) (L : List Expectation)
    (i : Nat) :
    ((observe r L)[i]?).map (fun e => e.observedCount) =
      (L[i]?).map (fun e =>
        e.observedCount + (if e.matcher r then 1 else 0)) := by
  rw [observe, List.getElem?_map]
  rcases L[i]? with _ | e
  · rfl
  · by_cases h : e.matcher r = true
    · simp [h]
    · simp [h]

/-- C5: for every live server, `handle` always records the request on the
expectation ledger — incrementing the observed count of every expectation
whose matcher matches, whether or not its generator wins — then resolves
the responder chain, and returns a response correlated to the request id:
an error response when the chain result is an Error value, a success
response otherwise. -/
theorem handle_observes_then_resolves (s : CoreServer) (r : JsonRpcRequest)
    (h : s.destroyed = false) :
    ∃ s' resp, handle s r = Except.ok (s', resp) ∧
      s'.ledger = observe r s.ledger ∧
      s'.responders = s.responders ∧
      (∀ i : Nat, ((s'.ledger)[i]?).map (fun e => e.observedCount) =
        ((s.ledger)[i]?).map (fun e =>
          e.observedCount + (if e.matcher r then 1 else 0))) ∧
      responseId resp = r.id ∧
      ((∃ code msg, chainResult s.responders r = JsValue.err code msg ∧
          resp = JsonRpcResponse.error r.id code msg) ∨
        ((∀ code msg, chainResult s.responders r ≠ JsValue.err code msg) ∧
          resp = JsonRpcResponse.success r.id (chainResult s.responders r))) := by
  refine ⟨{ s with ledger := observe r s.ledger },
    toResponse r.id (chainResult s.responders r), ?_, rfl, rfl, ?_, ?_, ?_⟩
  · simp [handle, h]
  · exact fun i => observe_observedCount r s.ledger i
  · rcases hv : chainResult s.responders r with _ | _ | b | n | t | ⟨code, msg⟩ <;> rfl
  · rcases hv : chainResult s.responders r with _ | _ | b | n | t | ⟨code, msg⟩ <;>
      first
        | exact Or.inl ⟨_, _, rfl, rfl⟩
        | exact Or.inr ⟨fun _ _ hc => JsValue.noConfusion hc, rfl⟩

/-- A sample live server: one responder answering `eth_getBalance`
requests, one expectation on the same method, an empty block store. -/
def sampleServer : CoreServer :=
  { responders :=
      [fun r => if r.method == "eth_getBalance" then JsValue.str "0x0"
        else JsValue.undef],
    ledger := addExpectation sampleMatcher [],
    store := { blocks := [], pending := [], genesis := 0 },
    destroyed := false }

/-- Witness for C5: `sampleServer` is live, so `handle` on `req0`
observes and responds as the theorem states. -/
theorem handle_observes_then_resolves_witness :
    ∃ s' resp, handle sampleServer req0 = Except.ok (s', resp) ∧
      s'.ledger = observe req0 sampleServer.ledger ∧
      s'.responders = sampleServer.responders ∧
      (∀ i : Nat, ((s'.ledger)[i]?).map (fun e => e.observedCount) =
        ((sampleServer.ledger)[i]?).map (fun e =>
          e.observedCount + (if e.matcher req0 then 1 else 0))) ∧
      responseId resp = req0.id ∧
      ((∃ code msg, chainResult sampleServer.responders req0 = JsValue.err code msg ∧
          resp = JsonRpcResponse.error req0.id code msg) ∨
        ((∀ code msg, chainResult sampleServer.responders req0 ≠ JsValue.err code msg) ∧
          resp = JsonRpcResponse.success req0.id
            (chainResult sampleServer.responders req0))) :=
  handle_observes_then_resolves sampleServer req0 rfl

/-- C6: once `destroy()` has run, every `handle` call fails fast with the
use-after-destroy fault and never produces a JSON-RPC response, and
destroying a second time changes nothing (idempotence). -/
theorem destroy_fail_fast (s : CoreServer) (r : JsonRpcRequest) :
    handle (CoreServer.destroy s) r = Except.error ServerFault.useAfterDestroy ∧
    (handle (CoreServer.destroy s) r).isOk = false ∧
    CoreServer.destroy (CoreServer.destroy s) = CoreServer.destroy s := by
  refine ⟨rfl, rfl, rfl⟩

/-- C7: after `clearResponders()`, a live server answers every request
with the fallback error response (the standing default-error responder
survives the clearing). -/
theorem clearResponders_yields_fallback (s : CoreServer) (r : JsonRpcRequest)
    (h : s.destroyed = false) :
    ∃ s', handle (clearResponders s) r =
      Except.ok (s', JsonRpcResponse.error r.id (-32601) "Method not found") := by
  refine ⟨{ clearResponders s with ledger := observe r s.ledger }, ?_⟩
  simp [handle, clearResponders, h, chainResult, resolve, fallbackError, toResponse]

/-- Witness for C7: clearing `sampleServer`'s responders makes `req0`
answer with the fallback error, though its own responder used to match. -/
theorem clearResponders_yields_fallback_witness :
    ∃ s', handle (clearResponders sampleServer) req0 =
      Except.ok (s', JsonRpcResponse.error req0.id (-32601) "Method not found") :=
  clearResponders_yields_fallback sampleServer req0 rfl

/-- `addExpectations(count, responseGenerator)` registers a repeat
expectation whose matcher is the generator's applicability (it matches a
request exactly when the generator does not decline it) and also
registers the generator as a responder, coupling assertion and answer.

Modelled from the spec: the registration behaviour behind the declared
`addExpectations` signature. -/
def addExpectations (count : Nat) (gen : Responder) (s : CoreServer) :
    CoreServer :=
  { s with
    ledger := s.ledger ++
      [{ matcher := fun r => decide (gen r ≠ JsValue.undef),
         requiredCount := count, observedCount := 0,
         tag := s.ledger.length }],
    responders := addResponder gen s.responders }

/-- The fixed set of transports a stub server can be constructed for. -/
inductive TransportKind where
  | http : TransportKind
  | ws : TransportKind
  | ipc : TransportKind
deriving DecidableEq

/-- A constructed stub server: the transport kind and listen address are
supplied only at construction and owned by the adapter; all behaviour
lives in the shared core.

Modelled from the spec: the transport subclasses declare constructors
only, so a server instance is a core tagged with its transport. -/
structure StubServer where
  kind : TransportKind
  address : String
  core : CoreServer

/-- The core state every freshly constructed server starts from: no
responders, no expectations, an empty block store, not destroyed.

Modelled from the spec: the protected `AbstractServer` constructor is
reachable only through the transport subclasses below. -/
def abstractServerInit : CoreServer :=
  { responders := [], ledger := [],
    store := { blocks := [], pending := [], genesis := 0 },
    destroyed := false }

/-- `new HttpServer(address)`: an HTTP-transport server over a fresh core. -/
def HttpServer (address : String) : StubServer :=
  { kind := TransportKind.http, address := address, core := abstractServerInit }

/-- `new WsServer(address)`: a WebSocket-transport server over a fresh core. -/
def WsServer (address : String) : StubServer :=
  { kind := TransportKind.ws, address := address, core := abstractServerInit }

/-- `new IpcServer(address)`: an IPC-transport server over a fresh core. -/
def IpcServer (address : String) : StubServer :=
  { kind := TransportKind.ipc, address := address, core := abstractServerInit }

/-- `createStubServer(transportType, transportAddress)`: constructs the
matching transport subclass for one of the admissible transport type
names, per the `.d.ts` doc comment "Must be one of HTTP, WS or IPC". -/
def createStubServer (transportType : String) (transportAddress : String) :
    Option StubServer :=
  if transportType = "HTTP" then some (HttpServer transportAddress)
  else if transportType = "WS" then some (WsServer transportAddress)
  else if transportType = "IPC" then some (IpcServer transportAddress)
  else none

/-- C9: every server instance `createStubServer` produces is exactly one
of the transport subclass constructions (each taking a single address
string); no instance arises from `AbstractServer` directly. -/
theorem createStubServer_uses_subclasses (t a : String) (s : StubServer)
    (h : createStubServer t a = some s) :
    s = HttpServer a ∨ s = WsServer a ∨ s = IpcServer a := by
  by_cases h1 : t = "HTTP"
  · left
    simp [createStubServer, h1] at h
    exact h.symm
  · by_cases h2 : t = "WS"
    · right; left
      simp [createStubServer, h1, h2] at h
      exact h.symm
    · by_cases h3 : t = "IPC"
      · right; right
        simp [createStubServer, h1, h2, h3] at h
        exact h.symm
      · simp [createStubServer, h1, h2, h3] at h

/-- Witness for C9: constructing with transport type HTTP yields the
`HttpServer` construction. -/
theorem createStubServer_uses_subclasses_witness :
    HttpServer "http://localhost:1337" = HttpServer "http://localhost:1337" ∨
    HttpServer "http://localhost:1337" = WsServer "http://localhost:1337" ∨
    HttpServer "http://localhost:1337" = IpcServer "http://localhost:1337" :=
  createStubServer_uses_subclasses "HTTP" "http://localhost:1337"
    (HttpServer "http://localhost:1337") rfl

/-- One call of the test-facing operation set shared by every transport
variant (`addExpectation`, `addExpectations`, `addResponder`,
`clearResponders`, `mine`, `destroy`). -/
inductive TestOp where
  | expectOne : (JsonRpcRequest → Bool) → TestOp
  | expectMany : Nat → Responder → TestOp
  | respond : Responder → TestOp
  | clear : TestOp
  | mineBlock : TestOp
  | teardown : TestOp

/-- Applies one test-facing operation to a core. -/
def applyOp (s : CoreServer) : TestOp → CoreServer
  | TestOp.expectOne m => { s with ledger := addExpectation m s.ledger }
  | TestOp.expectMany n gen => addExpectations n gen s
  | TestOp.respond g => { s with responders := addResponder g s.responders }
  | TestOp.clear => clearResponders s
  | TestOp.mineBlock => { s with store := mine s.store }
  | TestOp.teardown => CoreServer.destroy s

/-- Applies a sequence of test-facing operations in order. -/
def runOps (s : CoreServer) (ops : List TestOp) : CoreServer :=
  ops.foldl applyOp s

/-- C10: the three transport subclasses add nothing beyond their
constructor: for one address they differ only in transport kind, their
cores coincide, and under every sequence of test-facing operations the
resulting cores, `handle` outcomes and `assertExpectations` outcomes are
identical across HTTP, WS and IPC variants. -/
theorem transports_behave_identically (a : String) (ops : List TestOp)
    (r : JsonRpcRequest) :
    (HttpServer a).core = (WsServer a).core ∧
    (WsServer a).core = (IpcServer a).core ∧
    (HttpServer a).address = a ∧ (WsServer a).address = a ∧
    (IpcServer a).address = a ∧
    runOps (HttpServer a).core ops = runOps (WsServer a).core ops ∧
    runOps (WsServer a).core ops = runOps (IpcServer a).core ops ∧
    handle (runOps (HttpServer a).core ops) r =
      handle (runOps (IpcServer a).core ops) r ∧
    assertExpectations (runOps (HttpServer a).core ops).ledger =
      assertExpectations (runOps (WsServer a).core ops).ledger := by
  exact ⟨rfl, rfl, rfl, rfl, rfl, rfl, rfl, rfl, rfl⟩
